import Mathlib

/-!
Shallow embedding of `src/stock_price.py` (a Streamlit stock-analysis app).

Price columns are modelled as `List ℚ` (position-indexed, like pandas rows).
Pandas cells that can be NaN are modelled as `Option ℚ` (NaN = `none`) where
NaN can only arise from an incomplete rolling window, and as a dedicated
`FloatVal` type (with `nan`, `pinf`, `ninf`) for the RSI computation, where
division by a zero mean-loss produces IEEE infinities and NaNs that then flow
through further arithmetic and comparisons exactly as numpy evaluates them.
-/

namespace StockPrice

/-- IEEE-style extended value, covering exactly the float behaviours the RSI
computation in `stock_price.py` lines 86-90 can produce: finite values,
positive/negative infinity (from division by a zero rolling mean) and NaN
(from `0/0` and from propagation). Signed zero is collapsed to `0`, which is
observationally equal for every operation performed here. -/
inductive FloatVal where
  | nan : FloatVal
  | pinf : FloatVal
  | ninf : FloatVal
  | fin : ℚ → FloatVal
deriving DecidableEq, Repr, Inhabited

/-- IEEE negation. -/
def fneg : FloatVal → FloatVal
  | .nan => .nan
  | .pinf => .ninf
  | .ninf => .pinf
  | .fin q => .fin (-q)

/-- IEEE addition (numpy semantics): NaN propagates, `+∞ + -∞ = NaN`. -/
def fadd : FloatVal → FloatVal → FloatVal
  | .nan, _ => .nan
  | _, .nan => .nan
  | .pinf, .ninf => .nan
  | .ninf, .pinf => .nan
  | .pinf, _ => .pinf
  | _, .pinf => .pinf
  | .ninf, _ => .ninf
  | _, .ninf => .ninf
  | .fin a, .fin b => .fin (a + b)

/-- IEEE subtraction. -/
def fsub (a b : FloatVal) : FloatVal := fadd a (fneg b)

/-- IEEE division (numpy semantics): NaN propagates, `x/0 = ±∞` for `x ≠ 0`,
`0/0 = NaN`, `x/±∞ = 0`, `±∞/±∞ = NaN`. -/
def fdiv : FloatVal → FloatVal → FloatVal
  | .nan, _ => .nan
  | _, .nan => .nan
  | .pinf, .pinf => .nan
  | .pinf, .ninf => .nan
  | .ninf, .pinf => .nan
  | .ninf, .ninf => .nan
  | .pinf, .fin b => if 0 ≤ b then .pinf else .ninf
  | .ninf, .fin b => if 0 ≤ b then .ninf else .pinf
  | .fin _, .pinf => .fin 0
  | .fin _, .ninf => .fin 0
  | .fin a, .fin b =>
      if b ≠ 0 then .fin (a / b)
      else if 0 < a then .pinf
      else if a < 0 then .ninf
      else .nan

/-- IEEE `<` as a Bool: any comparison with NaN is `false`. -/
def fltB : FloatVal → FloatVal → Bool
  | .nan, _ => false
  | _, .nan => false
  | .fin a, .fin b => decide (a < b)
  | .ninf, .fin _ => true
  | .fin _, .pinf => true
  | .ninf, .pinf => true
  | _, _ => false

/-- Total cell access into a rational column, defaulting to 0 out of range
(only ever used at in-range indices). -/
def cell (xs : List ℚ) (i : ℕ) : ℚ := (xs[i]?).getD 0

/-- `Series.rolling(window=w).mean()` of pandas on a NaN-free column
(`min_periods` defaults to the window size): position `i` holds the mean of
positions `i-w+1 .. i` once `w` values are available, and NaN (`none`)
during the warm-up. -/
def rollingMean (w : ℕ) (xs : List ℚ) : List (Option ℚ) :=
  (List.range xs.length).map fun i =>
    if w ≤ i + 1 then some (((xs.drop (i + 1 - w)).take w).sum / (w : ℚ)) else none

/-- `Series.diff()` of pandas: NaN at position 0, `xs[i] - xs[i-1]` after. -/
def diff (xs : List ℚ) : List (Option ℚ) :=
  (List.range xs.length).map fun i =>
    if i = 0 then none else some (cell xs i - cell xs (i - 1))

/-- One cell of `delta.where(delta > 0, 0)` (line 87): keep positive changes,
everything else — including the NaN at position 0, since `NaN > 0` is false —
becomes 0. -/
def gainCell : Option ℚ → ℚ
  | some x => if 0 < x then x else 0
  | none => 0

/-- One cell of `-delta.where(delta < 0, 0)` (line 88): magnitude of negative
changes, everything else — including the NaN at position 0 — becomes 0. -/
def lossCell : Option ℚ → ℚ
  | some x => if x < 0 then -x else 0
  | none => 0

/-- The per-bar gain column of line 87 before the rolling mean. -/
def gainSeries (closes : List ℚ) : List ℚ := (diff closes).map gainCell

/-- The per-bar loss column of line 88 before the rolling mean. -/
def lossSeries (closes : List ℚ) : List ℚ := (diff closes).map lossCell

/-- One cell of `100 - (100 / (1 + gain/loss))` (lines 89-90), with `none`
(NaN) inputs coming from incomplete rolling windows. -/
def rsiCell (g l : Option ℚ) : FloatVal :=
  match g, l with
  | some g, some l =>
      fsub (.fin 100) (fdiv (.fin 100) (fadd (.fin 1) (fdiv (.fin g) (.fin l))))
  | _, _ => .nan

/-- The `RSI` column of lines 86-90. -/
def rsiSeries (closes : List ℚ) : List FloatVal :=
  List.zipWith rsiCell (rollingMean 14 (gainSeries closes))
    (rollingMean 14 (lossSeries closes))

/-- Python chained comparison `a > b` on possibly-NaN floats: false if either
side is NaN. -/
def ogtB (a b : Option ℚ) : Bool :=
  match a, b with
  | some x, some y => decide (y < x)
  | _, _ => false

/-- Python chained comparison `a < b` on possibly-NaN floats: false if either
side is NaN. -/
def oltB (a b : Option ℚ) : Bool :=
  match a, b with
  | some x, some y => decide (x < y)
  | _, _ => false

/-- Message of line 112. -/
def buyMsg : String :=
  "Potential Buy signal based on moving averages (Close > SMA20 > SMA50).\n"

/-- Message of line 114. -/
def sellMsg : String :=
  "Potential Sell signal based on moving averages (Close < SMA20 < SMA50).\n"

/-- Message of line 116. -/
def holdMsg : String := "Hold signal based on moving averages.\n"

/-- Message of line 119. -/
def oversoldMsg : String :=
  "RSI indicates the stock is oversold. Potential buy opportunity.\n"

/-- Message of line 121. -/
def overboughtMsg : String :=
  "RSI indicates the stock is overbought. Potential sell opportunity.\n"

/-- Message of line 123. -/
def neutralMsg : String := "RSI is neutral.\n"

/-- Trend branch of the recommendation, lines 111-116.  Python evaluates
`a > b > c` as `(a > b) and (b > c)` with NaN comparisons false; the latest
SMA values can be NaN during warm-up, the latest close is always a number. -/
def trendMsg (close : ℚ) (sma20 sma50 : Option ℚ) : String :=
  if ogtB (some close) sma20 && ogtB sma20 sma50 then buyMsg
  else if oltB (some close) sma20 && oltB sma20 sma50 then sellMsg
  else holdMsg

/-- RSI branch of the recommendation, lines 118-123. The latest RSI is a
`FloatVal` (it can be NaN during warm-up or for a flat series). -/
def rsiMsg (rsi : FloatVal) : String :=
  if fltB rsi (.fin 30) then oversoldMsg
  else if fltB (.fin 70) rsi then overboughtMsg
  else neutralMsg

/-- The full recommendation string of lines 110-123: trend message first,
then the RSI message. -/
def recommendation (close : ℚ) (sma20 sma50 : Option ℚ) (rsi : FloatVal) :
    String :=
  trendMsg close sma20 sma50 ++ rsiMsg rsi

/-- Hard-coded fallback list of lines 24-27. -/
def defaultSymbols : List String :=
  ["HDFCBANK.NS", "RELIANCE.NS", "TCS.NS", "INFY.NS", "WIPRO.NS",
   "ICICIBANK.NS", "SBIN.NS", "HINDUNILVR.NS", "HDFC.NS", "BHARTIARTL.NS"]

/-- Result of the symbol-catalog stage: the list, an optional non-fatal
warning (`st.error` displays a message and continues), and whether the
script aborted (it never does — there is no `st.stop` or re-raise). -/
structure SymbolsResult where
  symbols : List String
  warning : Option String
  aborted : Bool
deriving Repr, DecidableEq

/-- `get_nse_symbols` (lines 15-27).  The external `pd.read_html` call is
modelled by its outcome: `some table` for a successful retrieval (a `Symbol`
column with possibly-missing cells), `none` for any raised exception
(network error, parse error, structural change).  On success the code drops
missing cells and appends the `.NS` suffix; on failure it shows a non-fatal
message and returns the hard-coded list. -/
def get_nse_symbols (raw : Option (List (Option String))) : SymbolsResult :=
  match raw with
  | some table =>
      { symbols := (table.filterMap id).map (fun s => s ++ ".NS"),
        warning := none, aborted := false }
  | none =>
      { symbols := defaultSymbols,
        warning := some "Failed to fetch stock symbols. Using default list.",
        aborted := false }

/-- A pandas DataFrame as used by the script: the base OHLCV columns fetched
from the provider, plus the four derived columns, absent (`none`) until the
corresponding assignment statement has executed. -/
structure DataFrame where
  Dates : List Int
  Open : List ℚ
  High : List ℚ
  Low : List ℚ
  Close : List ℚ
  Volume : List ℚ
  SMA20 : Option (List (Option ℚ)) := none
  SMA50 : Option (List (Option ℚ)) := none
  SMA100 : Option (List (Option ℚ)) := none
  RSI : Option (List FloatVal) := none
deriving Repr, DecidableEq, Inhabited

/-- The four derived-column assignments of lines 70-72 and 86-90, as the pure
column computation they perform on the `Close` column. -/
def addIndicatorColumns (df : DataFrame) : DataFrame :=
  { df with
    SMA20 := some (rollingMean 20 df.Close),
    SMA50 := some (rollingMean 50 df.Close),
    SMA100 := some (rollingMean 100 df.Close),
    RSI := some (rsiSeries df.Close) }

/-- Python object state: a heap of DataFrame objects and the reference held
by the `data_df` variable.  Object identity is heap position, so in-place
mutation (what `data_df['SMA20'] = ...` does) is distinguishable from
copying (which would allocate a new object and leave the old one intact). -/
structure PyState where
  heap : List DataFrame
  data_df : ℕ
deriving Repr, DecidableEq

/-- The indicator-computation stage (lines 70-72 and 86-90): four successive
in-place column assignments on the object `data_df` references.  No copy is
made — the heap keeps its size and the referenced object itself is updated. -/
def indicatorStage (s : PyState) : PyState :=
  { s with
    heap := s.heap.set s.data_df
      (addIndicatorColumns (s.heap.getD s.data_df default)) }

/-- Latest close, `data_df['Close'].iloc[-1]`. -/
def lastClose (xs : List ℚ) : ℚ := (xs.getLast?).getD 0

/-- Latest value of a possibly-NaN column, `iloc[-1]`. -/
def lastOpt (xs : List (Option ℚ)) : Option ℚ := (xs.getLast?).getD none

/-- The advisor applied to an enriched DataFrame, reading the `iloc[-1]`
cells exactly as lines 111-123 do. -/
def adviseDf (df : DataFrame) : String :=
  recommendation (lastClose df.Close)
    (lastOpt (df.SMA20.getD []))
    (lastOpt (df.SMA50.getD []))
    (((df.RSI.getD []).getLast?).getD .nan)

/-- Observable outcome of one script run below line 46. -/
structure AppRun where
  fetchCalled : Bool
  errors : List String
  recText : Option String
deriving Repr, DecidableEq

/-- The pipeline from line 46 on.  Dates are day ordinals.  The external
fetch is modelled by its outcome `fetchResult` (`none` = the wrapped calls
raised, `some df` = a table, possibly empty); `fetchCalled` records whether
`fetch_stock_data` was invoked at all — inside the `else` branch it always
is, inside the `if start_date >= end_date` branch it never is. -/
def runApp (start_date end_date : Int) (fetchResult : Option DataFrame) :
    AppRun :=
  if end_date ≤ start_date then
    { fetchCalled := false,
      errors := ["Error: End date must fall after start date."],
      recText := none }
  else
    match fetchResult with
    | none =>
        { fetchCalled := true,
          errors := ["No data available for the selected stock and data range."],
          recText := none }
    | some df =>
        if df.Dates.isEmpty then
          { fetchCalled := true,
            errors := ["No data available for the selected stock and data range."],
            recText := none }
        else
          { fetchCalled := true,
            errors := [],
            recText := some (adviseDf (addIndicatorColumns df)) }

/-! ## Basic indexing lemmas about the embedded columns -/

theorem length_rollingMean (w : ℕ) (xs : List ℚ) :
    (rollingMean w xs).length = xs.length := by
  simp [rollingMean]

theorem length_diff (xs : List ℚ) : (diff xs).length = xs.length := by
  simp [diff]

theorem length_gainSeries (xs : List ℚ) : (gainSeries xs).length = xs.length := by
  simp [gainSeries, length_diff]

theorem length_lossSeries (xs : List ℚ) : (lossSeries xs).length = xs.length := by
  simp [lossSeries, length_diff]

theorem rollingMean_getElem? (w : ℕ) (xs : List ℚ) (i : ℕ) (h : i < xs.length) :
    (rollingMean w xs)[i]? =
      some (if w ≤ i + 1
        then some (((xs.drop (i + 1 - w)).take w).sum / (w : ℚ)) else none) := by
  simp [rollingMean, List.getElem?_map, List.getElem?_range, h]

theorem rollingMean_oob (w : ℕ) (xs : List ℚ) (i : ℕ) (h : xs.length ≤ i) :
    (rollingMean w xs)[i]? = none := by
  apply List.getElem?_eq_none
  simpa [length_rollingMean]

theorem rollingMean_defined (w : ℕ) (xs : List ℚ) (i : ℕ)
    (h1 : w ≤ i + 1) (h2 : i < xs.length) :
    (rollingMean w xs)[i]? =
      some (some (((xs.drop (i + 1 - w)).take w).sum / (w : ℚ))) := by
  rw [rollingMean_getElem? w xs i h2, if_pos h1]

theorem rollingMean_warmup (w : ℕ) (xs : List ℚ) (i : ℕ)
    (h1 : i + 1 < w) (h2 : i < xs.length) :
    (rollingMean w xs)[i]? = some none := by
  rw [rollingMean_getElem? w xs i h2, if_neg (by omega)]

theorem rollingMean_some_inv (w : ℕ) (xs : List ℚ) (i : ℕ) (q : ℚ)
    (h : (rollingMean w xs)[i]? = some (some q)) :
    i < xs.length ∧ w ≤ i + 1 ∧
      q = ((xs.drop (i + 1 - w)).take w).sum / (w : ℚ) := by
  by_cases hi : i < xs.length
  · rw [rollingMean_getElem? w xs i hi] at h
    by_cases hw : w ≤ i + 1
    · rw [if_pos hw] at h
      exact ⟨hi, hw, by simpa using h.symm⟩
    · rw [if_neg hw] at h
      simp at h
  · rw [rollingMean_oob w xs i (by omega)] at h
    simp at h

theorem diff_getElem? (xs : List ℚ) (i : ℕ) (h : i < xs.length) :
    (diff xs)[i]? =
      some (if i = 0 then none else some (cell xs i - cell xs (i - 1))) := by
  simp [diff, List.getElem?_map, List.getElem?_range, h]

theorem gainSeries_getElem? (xs : List ℚ) (i : ℕ) (h : i < xs.length) :
    (gainSeries xs)[i]? =
      some (gainCell (if i = 0 then none
        else some (cell xs i - cell xs (i - 1)))) := by
  simp only [gainSeries, List.getElem?_map, diff_getElem? xs i h, Option.map_some']

theorem lossSeries_getElem? (xs : List ℚ) (i : ℕ) (h : i < xs.length) :
    (lossSeries xs)[i]? =
      some (lossCell (if i = 0 then none
        else some (cell xs i - cell xs (i - 1)))) := by
  simp only [lossSeries, List.getElem?_map, diff_getElem? xs i h, Option.map_some']

theorem zipWith_getElem? {α β γ : Type} (f : α → β → γ) (as : List α)
    (bs : List β) (i : ℕ) :
    (List.zipWith f as bs)[i]? =
      (as[i]?).bind (fun a => (bs[i]?).map (f a)) := by
  induction as generalizing bs i with
  | nil => simp
  | cons a as ih =>
      cases bs with
      | nil => simp
      | cons b bs =>
          cases i with
          | zero => simp
          | succ j => simpa using ih bs j

theorem rsiSeries_getElem? (closes : List ℚ) (i : ℕ) :
    (rsiSeries closes)[i]? =
      ((rollingMean 14 (gainSeries closes))[i]?).bind
        (fun g => ((rollingMean 14 (lossSeries closes))[i]?).map
          (fun l => rsiCell g l)) := by
  simp [rsiSeries, zipWith_getElem?]

/-! ## Window-slice lemmas -/

theorem slice_getElem? (xs : List ℚ) (a w k : ℕ) (hk : k < w) :
    ((xs.drop a).take w)[k]? = xs[a + k]? := by
  rw [List.getElem?_take, if_pos hk, List.getElem?_drop]

theorem slice_forall_mem (xs : List ℚ) (a w : ℕ) (P : ℚ → Prop)
    (h : ∀ k, k < w → ∀ x, xs[a + k]? = some x → P x) :
    ∀ x ∈ (xs.drop a).take w, P x := by
  intro x hx
  obtain ⟨k, hk⟩ := List.mem_iff_getElem?.1 hx
  have hkw : k < w := by
    by_contra hge
    rw [List.getElem?_take, if_neg hge] at hk
    simp at hk
  rw [slice_getElem? xs a w k hkw] at hk
  exact h k hkw x hk

theorem cell_of_getElem? (xs : List ℚ) (i : ℕ) (x : ℚ)
    (h : xs[i]? = some x) : cell xs i = x := by
  simp [cell, h]

/-! ## Sign facts about gains and losses -/

theorem gainCell_nonneg (d : Option ℚ) : 0 ≤ gainCell d := by
  cases d with
  | none => simp [gainCell]
  | some x =>
      simp only [gainCell]
      split <;> [linarith; rfl]

theorem lossCell_nonneg (d : Option ℚ) : 0 ≤ lossCell d := by
  cases d with
  | none => simp [lossCell]
  | some x =>
      simp only [lossCell]
      split <;> [linarith; rfl]

theorem gainSeries_mem_nonneg (closes : List ℚ) :
    ∀ x ∈ gainSeries closes, 0 ≤ x := by
  intro x hx
  obtain ⟨d, _, rfl⟩ := List.mem_map.1 hx
  exact gainCell_nonneg d

theorem lossSeries_mem_nonneg (closes : List ℚ) :
    ∀ x ∈ lossSeries closes, 0 ≤ x := by
  intro x hx
  obtain ⟨d, _, rfl⟩ := List.mem_map.1 hx
  exact lossCell_nonneg d

theorem rollingMean_nonneg (w : ℕ) (xs : List ℚ) (i : ℕ) (q : ℚ)
    (hx : ∀ x ∈ xs, 0 ≤ x)
    (h : (rollingMean w xs)[i]? = some (some q)) : 0 ≤ q := by
  obtain ⟨-, -, rfl⟩ := rollingMean_some_inv w xs i q h
  apply div_nonneg
  · apply List.sum_nonneg
    intro x hxmem
    exact hx x (List.drop_subset _ _ (List.take_subset _ _ hxmem))
  · positivity

/-! ## Evaluation of one RSI cell -/

theorem rsiCell_pos_loss (g l : ℚ) (hg : 0 ≤ g) (hl : 0 < l) :
    rsiCell (some g) (some l) = .fin (100 - 100 / (1 + g / l)) := by
  have hrs : 0 ≤ g / l := div_nonneg hg hl.le
  have h1 : (1 : ℚ) + g / l ≠ 0 := by linarith
  simp only [rsiCell, fdiv, fadd, fsub, fneg]
  rw [if_pos hl.ne']
  simp only [fadd, fdiv, fsub, fneg]
  rw [if_pos h1]
  simp [fadd, sub_eq_add_neg]

theorem rsiCell_zero_loss_pos_gain (g : ℚ) (hg : 0 < g) :
    rsiCell (some g) (some 0) = .fin 100 := by
  simp only [rsiCell, fdiv]
  rw [if_neg (by simp), if_pos hg]
  norm_num [fadd, fdiv, fsub, fneg]

theorem rsiCell_zero_zero : rsiCell (some 0) (some 0) = .nan := by decide

theorem rsiCell_bounds (g l : ℚ) (hg : 0 ≤ g) (hl : 0 ≤ l)
    (hnan : rsiCell (some g) (some l) ≠ .nan) :
    ∃ q, rsiCell (some g) (some l) = .fin q ∧ 0 ≤ q ∧ q ≤ 100 := by
  rcases eq_or_lt_of_le hl with hl0 | hlpos
  · rcases eq_or_lt_of_le hg with hg0 | hgpos
    · exact absurd (by rw [← hg0, ← hl0]; exact rsiCell_zero_zero) hnan
    · refine ⟨100, by rw [← hl0]; exact rsiCell_zero_loss_pos_gain g hgpos, by norm_num⟩
  · refine ⟨100 - 100 / (1 + g / l), rsiCell_pos_loss g l hg hlpos, ?_, ?_⟩
    · have hrs : 0 ≤ g / l := div_nonneg hg hlpos.le
      have h1 : (0 : ℚ) < 1 + g / l := by linarith
      have hle : 100 / (1 + g / l) ≤ 100 := by
        apply div_le_self (by norm_num)
        linarith
      linarith
    · have hrs : 0 ≤ g / l := div_nonneg hg hlpos.le
      have h1 : (0 : ℚ) < 1 + g / l := by linarith
      have hpos : 0 < 100 / (1 + g / l) := by positivity
      linarith

theorem rsiCell_none_left (l : Option ℚ) : rsiCell none l = .nan := by
  cases l <;> rfl

theorem rsiCell_none_right (g : Option ℚ) : rsiCell g none = .nan := by
  cases g <;> rfl

theorem rsiSeries_some_inv (closes : List ℚ) (i : ℕ) (v : FloatVal)
    (hv : (rsiSeries closes)[i]? = some v) (hnan : v ≠ .nan) :
    ∃ g l, (rollingMean 14 (gainSeries closes))[i]? = some (some g) ∧
      (rollingMean 14 (lossSeries closes))[i]? = some (some l) ∧
      v = rsiCell (some g) (some l) ∧ 0 ≤ g ∧ 0 ≤ l := by
  rw [rsiSeries_getElem?] at hv
  cases hG : (rollingMean 14 (gainSeries closes))[i]? with
  | none => rw [hG] at hv; simp at hv
  | some g? =>
      rw [hG] at hv
      cases hL : (rollingMean 14 (lossSeries closes))[i]? with
      | none => rw [hL] at hv; simp at hv
      | some l? =>
          rw [hL] at hv
          have hv' : rsiCell g? l? = v := by
            simpa using hv
          cases g? with
          | none => exact absurd (by rw [← hv']; exact rsiCell_none_left l?) hnan
          | some g =>
              cases l? with
              | none => exact absurd (by rw [← hv']; exact rsiCell_none_right _) hnan
              | some l =>
                  exact ⟨g, l, rfl, rfl, hv'.symm,
                    rollingMean_nonneg 14 _ i g (gainSeries_mem_nonneg closes) hG,
                    rollingMean_nonneg 14 _ i l (lossSeries_mem_nonneg closes) hL⟩

theorem window_sum_zero (xs : List ℚ) (a w : ℕ)
    (h : ∀ k, k < w → ∀ x, xs[a + k]? = some x → x = 0) :
    ((xs.drop a).take w).sum = 0 :=
  List.sum_eq_zero (slice_forall_mem xs a w (fun x => x = 0) h)

theorem rollingMean_zero_of_all_zero (w : ℕ) (xs : List ℚ) (i : ℕ) (q : ℚ)
    (hz : ∀ (j : ℕ) (x : ℚ), xs[j]? = some x → x = 0)
    (h : (rollingMean w xs)[i]? = some (some q)) : q = 0 := by
  obtain ⟨-, -, rfl⟩ := rollingMean_some_inv w xs i q h
  rw [window_sum_zero xs (i + 1 - w) w (fun k _ x hx => hz (i + 1 - w + k) x hx)]
  exact zero_div _

theorem get_eq_cell (closes : List ℚ) (k : ℕ) (h : k < closes.length) :
    closes.get ⟨k, h⟩ = cell closes k := by
  simp [cell, List.getElem?_eq_getElem, h]

theorem chain'_cell (closes : List ℚ) (R : ℚ → ℚ → Prop)
    (hc : closes.Chain' R) (j : ℕ) (hj1 : 1 ≤ j) (hj : j < closes.length) :
    R (cell closes (j - 1)) (cell closes j) := by
  have h := List.chain'_iff_get.1 hc (j - 1) (by omega)
  rw [get_eq_cell, get_eq_cell] at h
  rwa [Nat.sub_add_cancel hj1] at h

theorem gainSeries_all_zero_of_dec (closes : List ℚ)
    (hdec : closes.Chain' (fun a b => b < a)) :
    ∀ (j : ℕ) (x : ℚ), (gainSeries closes)[j]? = some x → x = 0 := by
  intro j x hx
  by_cases hj : j < closes.length
  · rw [gainSeries_getElem? closes j hj] at hx
    simp only [Option.some.injEq] at hx
    subst hx
    by_cases h0 : j = 0
    · simp [h0, gainCell]
    · rw [if_neg h0]
      have hlt := chain'_cell closes _ hdec j (by omega) hj
      simp only [gainCell, if_neg (by linarith : ¬(0 : ℚ) < cell closes j - cell closes (j - 1))]
  · rw [List.getElem?_eq_none (by rw [length_gainSeries]; omega)] at hx
    simp at hx

theorem lossSeries_all_zero_of_inc (closes : List ℚ)
    (hinc : closes.Chain' (fun a b => a < b)) :
    ∀ (j : ℕ) (x : ℚ), (lossSeries closes)[j]? = some x → x = 0 := by
  intro j x hx
  by_cases hj : j < closes.length
  · rw [lossSeries_getElem? closes j hj] at hx
    simp only [Option.some.injEq] at hx
    subst hx
    by_cases h0 : j = 0
    · simp [h0, lossCell]
    · rw [if_neg h0]
      have hlt := chain'_cell closes _ hinc j (by omega) hj
      simp only [lossCell, if_neg (by linarith : ¬cell closes j - cell closes (j - 1) < 0)]
  · rw [List.getElem?_eq_none (by rw [length_lossSeries]; omega)] at hx
    simp at hx

/-! ## Claim theorems -/

/-- C3: the trend rule is evaluated in this exact order with first match
winning: if latestClose > SMA20 > SMA50 (strict) the trend message is the
Buy message; else if latestClose < SMA20 < SMA50 (strict) it is the Sell
message; else it is the Hold message.  The three sample inputs from the
claim are evaluated as well. -/
theorem trend_rule (close s20 s50 : ℚ) :
    trendMsg close (some s20) (some s50) =
      (if s50 < s20 ∧ s20 < close then buyMsg
       else if close < s20 ∧ s20 < s50 then sellMsg
       else holdMsg) ∧
    trendMsg 105 (some 104) (some 103) = buyMsg ∧
    trendMsg 95 (some 96) (some 97) = sellMsg ∧
    trendMsg 100 (some 100) (some 105) = holdMsg := by
  refine ⟨?_, by decide, by decide, by decide⟩
  by_cases h1 : s20 < close <;> by_cases h2 : s50 < s20 <;>
    by_cases h3 : close < s20 <;> by_cases h4 : s20 < s50 <;>
      simp [trendMsg, ogtB, oltB, h1, h2, h3, h4]

/-- C4: the RSI rule uses strict inequalities: for a defined RSI value,
RSI < 30 yields the Oversold message, RSI > 70 the Overbought message, and
otherwise — including exactly 30 and exactly 70 — the Neutral message. -/
theorem rsi_rule (q : ℚ) :
    rsiMsg (.fin q) =
      (if q < 30 then oversoldMsg
       else if 70 < q then overboughtMsg
       else neutralMsg) ∧
    rsiMsg (.fin 30) = neutralMsg ∧
    rsiMsg (.fin 70) = neutralMsg := by
  refine ⟨?_, by decide, by decide⟩
  by_cases h1 : q < 30 <;> by_cases h2 : 70 < q <;>
    simp [rsiMsg, fltB, h1, h2]

/-- C5, counterexample: with SMA20, SMA50 and RSI all undefined
(insufficient history) the advisor does not report any "indeterminate"
sub-signal; it emits the computed Hold message and the computed Neutral
message. -/
theorem advisor_indeterminate_counterexample :
    recommendation 100 none none .nan = holdMsg ++ neutralMsg ∧
    holdMsg = "Hold signal based on moving averages.\n" ∧
    neutralMsg = "RSI is neutral.\n" :=
  ⟨rfl, rfl, rfl⟩

/-- C5, amended: when SMA20 or SMA50 is undefined every chained trend
comparison is false (NaN comparison semantics) and the trend sub-signal is
the computed Hold message; when RSI is undefined both RSI comparisons are
false and the RSI sub-signal is the computed Neutral message.  No
"indeterminate" report exists in the code. -/
theorem advisor_undefined_fallback (close : ℚ) (sma20 sma50 : Option ℚ)
    (rsi : FloatVal) :
    ((sma20 = none ∨ sma50 = none) → trendMsg close sma20 sma50 = holdMsg) ∧
    (rsi = .nan → rsiMsg rsi = neutralMsg) := by
  constructor
  · rintro (rfl | rfl)
    · simp [trendMsg, ogtB, oltB]
    · cases sma20 <;> simp [trendMsg, ogtB, oltB]
  · rintro rfl
    simp [rsiMsg, fltB]

/-- C5, witness for the amended theorem. -/
theorem advisor_undefined_fallback_witness :
    trendMsg 100 none (some 90) = holdMsg ∧ rsiMsg .nan = neutralMsg :=
  ⟨(advisor_undefined_fallback 100 none (some 90) .nan).1 (Or.inl rfl),
   (advisor_undefined_fallback 100 none (some 90) .nan).2 rfl⟩

/-- C6: for every pair of dates with start ≥ end the pipeline reports the
user-facing validation error and never invokes the fetch; the fetch is
attempted exactly when start < end. -/
theorem date_guard (s e : Int) (fr : Option DataFrame) :
    (e ≤ s → runApp s e fr =
      { fetchCalled := false,
        errors := ["Error: End date must fall after start date."],
        recText := none }) ∧
    (s < e → (runApp s e fr).fetchCalled = true) := by
  constructor
  · intro h
    simp [runApp, h]
  · intro h
    rw [runApp.eq_def, if_neg (by omega)]
    cases fr with
    | none => rfl
    | some df => by_cases hd : df.Dates.isEmpty <;> simp [hd]

/-- C6, witness: the claim's concrete pair (start one day after end) is
rejected without a fetch, and a valid pair triggers the fetch. -/
theorem date_guard_witness :
    runApp 21 20 none =
      { fetchCalled := false,
        errors := ["Error: End date must fall after start date."],
        recText := none } ∧
    (runApp 20 21 none).fetchCalled = true :=
  ⟨(date_guard 21 20 none).1 (by decide), (date_guard 20 21 none).2 (by decide)⟩

/-- C9: whenever retrieval of the symbol catalog fails, `get_nse_symbols`
returns the fixed hard-coded fallback list of 10 symbols and signals only a
non-fatal warning (the script is not aborted), so the pipeline keeps a
non-empty selectable symbol list. -/
theorem catalog_fallback :
    get_nse_symbols none =
      { symbols := defaultSymbols,
        warning := some "Failed to fetch stock symbols. Using default list.",
        aborted := false } ∧
    10 ≤ (get_nse_symbols none).symbols.length ∧
    (get_nse_symbols none).symbols ≠ [] ∧
    (get_nse_symbols none).aborted = false := by
  refine ⟨rfl, by decide, by decide, rfl⟩

theorem getD_eq_of_getElem? {α : Type} (l : List α) (i : ℕ) (d a : α)
    (h : l[i]? = some a) : l.getD i d = a := by
  rw [List.getD_eq_getElem?_getD, h]
  rfl

/-- C7, counterexample: the indicator stage mutates the very object the
fetcher returned — after it runs, the DataFrame at the reference held before
the stage is no longer the fetched DataFrame (it has gained the derived
columns in place). -/
theorem indicator_no_mutation_counterexample :
    (indicatorStage
      { heap := [{ Dates := [0], Open := [10], High := [10], Low := [10],
                   Close := [10], Volume := [0] }],
        data_df := 0 }).heap[0]? ≠
      some { Dates := [0], Open := [10], High := [10], Low := [10],
             Close := [10], Volume := [0] } := by
  decide

/-- C7, amended: the indicator stage updates the fetched DataFrame in place:
no new object is allocated (heap size unchanged, every other object
untouched) and the object `data_df` references afterwards is the fetched
one extended with the SMA20/SMA50/SMA100/RSI columns, its date and OHLCV
columns unchanged. -/
theorem indicator_stage_in_place (s : PyState) (h : s.data_df < s.heap.length) :
    (indicatorStage s).heap.length = s.heap.length ∧
    (∀ j : ℕ, j ≠ s.data_df → (indicatorStage s).heap[j]? = s.heap[j]?) ∧
    ∀ df : DataFrame, s.heap[s.data_df]? = some df →
      (indicatorStage s).heap[s.data_df]? =
        some { df with
          SMA20 := some (rollingMean 20 df.Close),
          SMA50 := some (rollingMean 50 df.Close),
          SMA100 := some (rollingMean 100 df.Close),
          RSI := some (rsiSeries df.Close) } := by
  refine ⟨by simp [indicatorStage], ?_, ?_⟩
  · intro j hj
    simp only [indicatorStage]
    exact List.getElem?_set_ne (fun e => hj e.symm)
  · intro df hdf
    simp only [indicatorStage]
    rw [List.getElem?_set_self]
    · rw [getD_eq_of_getElem? s.heap s.data_df default df hdf]
      rfl
    · exact h

/-- C7, witness for the amended theorem, at a one-object heap holding a
one-bar DataFrame. -/
theorem indicator_stage_in_place_witness :
    (indicatorStage
      { heap := [{ Dates := [0], Open := [10], High := [10], Low := [10],
                   Close := [10], Volume := [0] }],
        data_df := 0 }).heap[0]? =
      some { Dates := [0], Open := [10], High := [10], Low := [10],
             Close := [10], Volume := [0],
             SMA20 := some (rollingMean 20 [10]),
             SMA50 := some (rollingMean 50 [10]),
             SMA100 := some (rollingMean 100 [10]),
             RSI := some (rsiSeries [10]) } :=
  (indicator_stage_in_place
    { heap := [{ Dates := [0], Open := [10], High := [10], Low := [10],
                 Close := [10], Volume := [0] }],
      data_df := 0 } (by decide)).2.2
    { Dates := [0], Open := [10], High := [10], Low := [10],
      Close := [10], Volume := [0] } (by decide)

/-- C1: for every window n in the set used by the script (20, 50, 100), the
SMA(n) column at bar i (0-indexed) holds the arithmetic mean of the close
prices of bars i-n+1 through i — the window slice, whose length is exactly
n — and holds no value (NaN) at every bar i < n-1; for a series with fewer
than n bars it holds no value at every bar. -/
theorem sma_spec (n : ℕ) (hn : n = 20 ∨ n = 50 ∨ n = 100) (closes : List ℚ)
    (i : ℕ) :
    (n - 1 ≤ i → i < closes.length →
      (rollingMean n closes)[i]? =
        some (some (((closes.drop (i + 1 - n)).take n).sum / (n : ℚ))) ∧
      ((closes.drop (i + 1 - n)).take n).length = n) ∧
    (i < n - 1 → i < closes.length → (rollingMean n closes)[i]? = some none) ∧
    (closes.length < n → i < closes.length →
      (rollingMean n closes)[i]? = some none) := by
  have hn0 : 0 < n := by rcases hn with rfl | rfl | rfl <;> norm_num
  refine ⟨?_, ?_, ?_⟩
  · intro h1 h2
    refine ⟨rollingMean_defined n closes i (by omega) h2, ?_⟩
    rw [List.length_take, List.length_drop]
    omega
  · intro h1 h2
    exact rollingMean_warmup n closes i (by omega) h2
  · intro h1 h2
    exact rollingMean_warmup n closes i (by omega) h2

/-- C1, witness: SMA(20) on a 20-bar series is the mean of the 20 closes at
the last bar and absent at bar 2. -/
theorem sma_spec_witness :
    (20 - 1 ≤ 19 ∧ 19 < (List.replicate 20 (7 : ℚ)).length ∧
      (rollingMean 20 (List.replicate 20 (7 : ℚ)))[19]? =
        some (some ((((List.replicate 20 (7 : ℚ)).drop (19 + 1 - 20)).take 20).sum
          / (20 : ℚ)))) ∧
    (2 < 20 - 1 ∧ (rollingMean 20 (List.replicate 20 (7 : ℚ)))[2]? = some none) :=
  ⟨⟨by decide, by decide,
    ((sma_spec 20 (Or.inl rfl) (List.replicate 20 (7 : ℚ)) 19).1
      (by decide) (by decide)).1⟩,
   ⟨by decide,
    (sma_spec 20 (Or.inl rfl) (List.replicate 20 (7 : ℚ)) 2).2.1
      (by decide) (by decide)⟩⟩

/-- C2, counterexample: on a 15-bar constant close series the 14-bar mean
loss at the last bar is 0 (and so is the mean gain), yet the computed RSI
there is NaN — `0/0` propagates — not 100. -/
theorem rsi_zero_loss_counterexample :
    (rollingMean 14 (lossSeries (List.replicate 15 (10 : ℚ))))[14]? =
      some (some 0) ∧
    (rollingMean 14 (gainSeries (List.replicate 15 (10 : ℚ))))[14]? =
      some (some 0) ∧
    (rsiSeries (List.replicate 15 (10 : ℚ)))[14]? = some FloatVal.nan ∧
    FloatVal.nan ≠ FloatVal.fin 100 := by
  with_unfolding_all decide

/-- C2, amended: at a bar whose 14-bar mean loss is 0, the computed RSI is
100 when the 14-bar mean gain is positive and NaN (undefined) when the mean
gain is 0 as well; in particular, for any strictly increasing close series
of at least 15 bars, RSI(14) at bar 15 (index 14) equals 100. -/
theorem rsi_zero_loss (closes : List ℚ) (i : ℕ) (g : ℚ)
    (hg : (rollingMean 14 (gainSeries closes))[i]? = some (some g))
    (hl : (rollingMean 14 (lossSeries closes))[i]? = some (some 0)) :
    (rsiSeries closes)[i]? =
      some (if 0 < g then FloatVal.fin 100 else FloatVal.nan) ∧
    (closes.Chain' (fun a b => a < b) → 15 ≤ closes.length →
      (rsiSeries closes)[14]? = some (FloatVal.fin 100)) := by
  constructor
  · rw [rsiSeries_getElem?, hg, hl]
    simp only [Option.some_bind, Option.bind_some, Option.map_some',
      Option.some.injEq]
    by_cases hgpos : 0 < g
    · rw [if_pos hgpos]
      exact rsiCell_zero_loss_pos_gain g hgpos
    · have hg0 : g = 0 :=
        le_antisymm (not_lt.1 hgpos)
          (rollingMean_nonneg 14 _ i g (gainSeries_mem_nonneg closes) hg)
      rw [if_neg hgpos, hg0]
      exact rsiCell_zero_zero
  · intro hinc hlen
    have hidx : (14 : ℕ) < closes.length := by omega
    have hgl : 14 < (gainSeries closes).length := by
      rw [length_gainSeries]; omega
    have hll : 14 < (lossSeries closes).length := by
      rw [length_lossSeries]; omega
    have hGdef := rollingMean_defined 14 (gainSeries closes) 14 (by norm_num) hgl
    have hLdef := rollingMean_defined 14 (lossSeries closes) 14 (by norm_num) hll
    have hlz : (((lossSeries closes).drop (14 + 1 - 14)).take 14).sum = 0 := by
      apply window_sum_zero
      intro k hk x hx
      exact lossSeries_all_zero_of_inc closes hinc _ x hx
    have hgpos :
        0 < (((gainSeries closes).drop (14 + 1 - 14)).take 14).sum := by
      apply List.sum_pos
      · apply slice_forall_mem
        intro k hk x hx
        have hj : 1 + k < closes.length := by omega
        rw [show (14 + 1 - 14 : ℕ) + k = 1 + k by omega] at hx
        rw [gainSeries_getElem? closes (1 + k) hj] at hx
        simp only [Option.some.injEq] at hx
        subst hx
        rw [if_neg (by omega)]
        have hlt := chain'_cell closes _ hinc (1 + k) (by omega) hj
        have hd : 0 < cell closes (1 + k) - cell closes (1 + k - 1) := by
          linarith
        simp only [gainCell, if_pos hd]
        linarith
      · intro hnil
        have := congrArg List.length hnil
        rw [List.length_take, List.length_drop, length_gainSeries] at this
        simp at this
        omega
    rw [rsiSeries_getElem?, hGdef, hLdef]
    simp only [Option.some_bind, Option.bind_some, Option.map_some',
      Option.some.injEq, hlz]
    rw [zero_div]
    exact rsiCell_zero_loss_pos_gain _ (div_pos hgpos (by norm_num))

/-- C2, witness for the amended theorem: on the strictly increasing 15-bar
series 0,1,...,14 the 14-bar mean gain at the last bar is 1, the mean loss
is 0, and the RSI there is 100. -/
theorem rsi_zero_loss_witness :
    (rollingMean 14 (gainSeries ([0, 1, 2, 3, 4, 5, 6, 7, 8, 9, 10, 11, 12,
      13, 14] : List ℚ)))[14]? = some (some 1) ∧
    (rsiSeries ([0, 1, 2, 3, 4, 5, 6, 7, 8, 9, 10, 11, 12, 13, 14] :
      List ℚ))[14]? = some (FloatVal.fin 100) := by
  constructor
  · with_unfolding_all decide
  · have h := (rsi_zero_loss ([0, 1, 2, 3, 4, 5, 6, 7, 8, 9, 10, 11, 12, 13,
      14] : List ℚ) 14 1 (by with_unfolding_all decide)
      (by with_unfolding_all decide)).1
    norm_num at h
    exact h

/-- C8: at every bar where the computed RSI is a number it lies in [0,100];
on a strictly decreasing close series every defined RSI value is 0, and on
a strictly increasing one every defined RSI value is 100 — with no clamping
anywhere in the computation. -/
theorem rsi_bounds (closes : List ℚ) (i : ℕ) (v : FloatVal)
    (hv : (rsiSeries closes)[i]? = some v) (hnan : v ≠ .nan) :
    (∃ q, v = .fin q ∧ 0 ≤ q ∧ q ≤ 100) ∧
    (closes.Chain' (fun a b => b < a) → v = .fin 0) ∧
    (closes.Chain' (fun a b => a < b) → v = .fin 100) := by
  obtain ⟨g, l, hG, hL, hveq, hg0, hl0⟩ := rsiSeries_some_inv closes i v hv hnan
  refine ⟨?_, ?_, ?_⟩
  · rw [hveq]
    exact rsiCell_bounds g l hg0 hl0 (hveq ▸ hnan)
  · intro hdec
    have hgz : g = 0 :=
      rollingMean_zero_of_all_zero 14 _ i g
        (gainSeries_all_zero_of_dec closes hdec) hG
    subst hgz
    rcases eq_or_lt_of_le hl0 with hle | hlt
    · exact absurd (by rw [hveq, ← hle]; exact rsiCell_zero_zero) hnan
    · rw [hveq, rsiCell_pos_loss 0 l le_rfl hlt]
      norm_num
  · intro hinc
    have hlz : l = 0 :=
      rollingMean_zero_of_all_zero 14 _ i l
        (lossSeries_all_zero_of_inc closes hinc) hL
    subst hlz
    rcases eq_or_lt_of_le hg0 with hge | hgt
    · exact absurd (by rw [hveq, ← hge]; exact rsiCell_zero_zero) hnan
    · rw [hveq, rsiCell_zero_loss_pos_gain g hgt]

/-- C8, witness: on the strictly decreasing 15-bar series 14,13,...,0 the
RSI at the last bar is defined, equal to 0, and inside [0,100]. -/
theorem rsi_bounds_witness :
    (rsiSeries ([14, 13, 12, 11, 10, 9, 8, 7, 6, 5, 4, 3, 2, 1, 0] :
      List ℚ))[14]? = some (FloatVal.fin 0) ∧
    (∃ q, FloatVal.fin 0 = FloatVal.fin q ∧ 0 ≤ q ∧ q ≤ 100) ∧
    FloatVal.fin 0 = FloatVal.fin 0 := by
  have h := rsi_bounds ([14, 13, 12, 11, 10, 9, 8, 7, 6, 5, 4, 3, 2, 1, 0] :
    List ℚ) 14 (FloatVal.fin 0) (by with_unfolding_all decide) (by decide)
  exact ⟨by with_unfolding_all decide, h.1,
    h.2.1 (by norm_num [List.chain'_cons])⟩

/-- C10: at any bar preceded by a run of 15 bars with identical close
prices, both the 14-bar mean gain and the 14-bar mean loss are 0 and the
computed RSI is NaN (undefined) — neither 100 nor 0. -/
theorem rsi_flat_run (closes : List ℚ) (i : ℕ) (hi : i < closes.length)
    (h14 : 14 ≤ i)
    (hrun : ∀ j : ℕ, i - 14 ≤ j → j ≤ i →
      cell closes j = cell closes (i - 14)) :
    (rollingMean 14 (gainSeries closes))[i]? = some (some 0) ∧
    (rollingMean 14 (lossSeries closes))[i]? = some (some 0) ∧
    (rsiSeries closes)[i]? = some FloatVal.nan ∧
    FloatVal.nan ≠ FloatVal.fin 100 ∧ FloatVal.nan ≠ FloatVal.fin 0 := by
  have hdelta : ∀ j : ℕ, i - 13 ≤ j → j ≤ i →
      cell closes j - cell closes (j - 1) = 0 := by
    intro j h1 h2
    rw [hrun j (by omega) h2, hrun (j - 1) (by omega) (by omega)]
    ring
  have hgl : 14 < (gainSeries closes).length + 1 := by
    rw [length_gainSeries]; omega
  have hgdef := rollingMean_defined 14 (gainSeries closes) i (by omega)
    (by rw [length_gainSeries]; omega)
  have hldef := rollingMean_defined 14 (lossSeries closes) i (by omega)
    (by rw [length_lossSeries]; omega)
  have hgz : (((gainSeries closes).drop (i + 1 - 14)).take 14).sum = 0 := by
    apply window_sum_zero
    intro k hk x hx
    have hj : i + 1 - 14 + k < closes.length := by omega
    rw [gainSeries_getElem? closes _ hj] at hx
    simp only [Option.some.injEq] at hx
    subst hx
    rw [if_neg (by omega),
      hdelta (i + 1 - 14 + k) (by omega) (by omega)]
    simp [gainCell]
  have hlz : (((lossSeries closes).drop (i + 1 - 14)).take 14).sum = 0 := by
    apply window_sum_zero
    intro k hk x hx
    have hj : i + 1 - 14 + k < closes.length := by omega
    rw [lossSeries_getElem? closes _ hj] at hx
    simp only [Option.some.injEq] at hx
    subst hx
    rw [if_neg (by omega),
      hdelta (i + 1 - 14 + k) (by omega) (by omega)]
    simp [lossCell]
  have hG : (rollingMean 14 (gainSeries closes))[i]? = some (some 0) := by
    rw [hgdef, hgz, zero_div]
  have hL : (rollingMean 14 (lossSeries closes))[i]? = some (some 0) := by
    rw [hldef, hlz, zero_div]
  refine ⟨hG, hL, ?_, by decide, by decide⟩
  rw [rsiSeries_getElem?, hG, hL]
  simp only [Option.some_bind, Option.bind_some, Option.map_some',
    Option.some.injEq]
  exact rsiCell_zero_zero

/-- C10, witness: the 15-bar constant series. -/
theorem rsi_flat_run_witness :
    (rsiSeries (List.replicate 15 (10 : ℚ)))[14]? = some FloatVal.nan :=
  (rsi_flat_run (List.replicate 15 (10 : ℚ)) 14 (by decide) (by decide)
    (by
      intro j h1 h2
      have hj : j < 15 := by omega
      rw [cell_of_getElem? _ j 10 (by rw [List.getElem?_replicate, if_pos hj]),
        cell_of_getElem? _ (14 - 14) 10
          (by rw [List.getElem?_replicate]; norm_num)])).2.2.1

end StockPrice
